import Mathlib

/-!
Shallow embedding of the datafest_map scoring/matching pipeline
(`src/unnamed/part_001` and `src/frontend/src/MapVisualization.tsx`).

Strings are modelled as Lean `String` (lists of characters); the JS string
helpers used by the source (`toLowerCase`, `toUpperCase`, `trim`, `split`,
`includes`, `parseInt`, `parseFloat`) are modelled for ASCII input, which is
the repository's data domain.  JS numbers are modelled as `ℚ` so that the
arithmetic of the pipeline (means, min-max normalization, rescaling) is exact.
-/

/-- ASCII whitespace test, modelling the character class `\s` used by the
source's regexes and the whitespace skipped by `trim`/`parseInt`/`parseFloat`. -/
def isWSChar (c : Char) : Bool :=
  c = ' ' || c = '\t' || c = '\n' || c = '\r' || c = '\x0b' || c = '\x0c'

/-- ASCII model of JS `String.prototype.toLowerCase` applied per character. -/
def jsToLower (c : Char) : Char :=
  if 65 ≤ c.toNat ∧ c.toNat ≤ 90 then Char.ofNat (c.toNat + 32) else c

/-- ASCII model of JS `String.prototype.toUpperCase` applied per character. -/
def jsToUpper (c : Char) : Char :=
  if 97 ≤ c.toNat ∧ c.toNat ≤ 122 then Char.ofNat (c.toNat - 32) else c

/-- Decimal digit test. -/
def isDigitChar (c : Char) : Bool := 48 ≤ c.toNat && c.toNat ≤ 57

/-- Model of `.replace(/\s+/g, ' ')`: every maximal run of whitespace becomes
one single space. -/
def collapseWS : List Char → List Char
  | [] => []
  | [c] => if isWSChar c then [' '] else [c]
  | c1 :: c2 :: rest =>
    if isWSChar c1 && isWSChar c2 then collapseWS (c2 :: rest)
    else (if isWSChar c1 then ' ' else c1) :: collapseWS (c2 :: rest)

/-- Model of `.replace(/ county/gi, '')` on an already lowercased string:
scan left to right, on a match of `" county"` delete it and continue after
the match, otherwise keep one character and continue. -/
def removeCounty : List Char → List Char
  | ' ' :: 'c' :: 'o' :: 'u' :: 'n' :: 't' :: 'y' :: rest => removeCounty rest
  | c :: rest => c :: removeCounty rest
  | [] => []

/-- Model of `.replace(/ parish/gi, '')` on an already lowercased string. -/
def removeParish : List Char → List Char
  | ' ' :: 'p' :: 'a' :: 'r' :: 'i' :: 's' :: 'h' :: rest => removeParish rest
  | c :: rest => c :: removeParish rest
  | [] => []

/-- Model of JS `String.prototype.trim`. -/
def trimChars (l : List Char) : List Char :=
  ((l.dropWhile isWSChar).reverse.dropWhile isWSChar).reverse

/-- JS `trim` lifted to `String`. -/
def jsTrim (s : String) : String := ⟨trimChars s.data⟩

/-- JS `toUpperCase` lifted to `String`. -/
def jsToUpperStr (s : String) : String := ⟨s.data.map jsToUpper⟩

/-- `normalizeCountyName` from `src/unnamed/part_001` lines 196-203 (identical
in `src/frontend/src/MapVisualization.tsx` lines 181-188): lowercase, collapse
whitespace runs, strip every `" county"` and `" parish"` occurrence, trim. -/
def normalizeCountyName (name : String) : String :=
  ⟨trimChars (removeParish (removeCounty (collapseWS (name.data.map jsToLower))))⟩

/-- Model of JS `String.prototype.split(sep)` for a single-character
separator (the source splits on `'\n'`, `','` and `' '`). -/
def splitOnChar (sep : Char) : List Char → List (List Char)
  | [] => [[]]
  | c :: rest =>
    if c = sep then [] :: splitOnChar sep rest
    else
      match splitOnChar sep rest with
      | [] => [[c]]
      | h :: t => (c :: h) :: t

/-- Model of JS `String.prototype.split('US')`, used on `GEO_ID` values. -/
def splitOnUS : List Char → List (List Char)
  | 'U' :: 'S' :: rest => [] :: splitOnUS rest
  | c :: rest =>
    match splitOnUS rest with
    | [] => [[c]]
    | h :: t => (c :: h) :: t
  | [] => [[]]

/-- Model of JS `Array.prototype.join(' ')`. -/
def joinSpace : List (List Char) → List Char
  | [] => []
  | [l] => l
  | l :: rest => l ++ ' ' :: joinSpace rest

/-- Model of JS `String.prototype.includes`: does `l` contain `sub` as a
contiguous substring? -/
def listContains : List Char → List Char → Bool
  | [], sub => sub.isEmpty
  | l@(_ :: rest), sub => sub.isPrefixOf l || listContains rest sub

/-- Numeric value of a list of decimal digits. -/
def natOfDigits (l : List Char) : Nat :=
  l.foldl (fun acc c => acc * 10 + (c.toNat - 48)) 0

/-- Model of JS `parseInt(s, 10)`: skip whitespace, optional sign, then the
longest digit prefix; `none` models `NaN` (no digit consumed). -/
def parseIntJS (s : String) : Option Int :=
  let l := s.data.dropWhile isWSChar
  let p : Int × List Char :=
    match l with
    | '-' :: r => (-1, r)
    | '+' :: r => (1, r)
    | _ => (1, l)
  let digits := p.2.takeWhile isDigitChar
  if digits.isEmpty then none else some (p.1 * (natOfDigits digits : Int))

/-- Exponent part of a JS float literal: optional sign then digits; an
exponent with no digits is not consumed by `parseFloat`, contributing 0. -/
def parseExp (l : List Char) : Int :=
  let p : Int × List Char :=
    match l with
    | '-' :: r => (-1, r)
    | '+' :: r => (1, r)
    | _ => (1, l)
  let digits := p.2.takeWhile isDigitChar
  if digits.isEmpty then 0 else p.1 * (natOfDigits digits : Int)

/-- Model of JS `parseFloat`: skip whitespace, optional sign, longest prefix
of the form `digits [. digits] [e|E [sign] digits]`; `none` models `NaN`. -/
def parseFloatJS (s : String) : Option ℚ :=
  let l := s.data.dropWhile isWSChar
  let p : ℚ × List Char :=
    match l with
    | '-' :: r => (-1, r)
    | '+' :: r => (1, r)
    | _ => (1, l)
  let intDigits := p.2.takeWhile isDigitChar
  let rest1 := p.2.dropWhile isDigitChar
  let q : List Char × List Char :=
    match rest1 with
    | '.' :: r => (r.takeWhile isDigitChar, r.dropWhile isDigitChar)
    | _ => ([], rest1)
  if intDigits.isEmpty && q.1.isEmpty then none
  else
    let mantissa : ℚ :=
      (natOfDigits intDigits : ℚ) + (natOfDigits q.1 : ℚ) / (10 : ℚ) ^ q.1.length
    let e : Int :=
      match q.2 with
      | 'e' :: r => parseExp r
      | 'E' :: r => parseExp r
      | _ => 0
    some (p.1 * mantissa * (10 : ℚ) ^ e)

/-- A parsed row of the score table, mirroring the element type of
`allCSVData` in `src/unnamed/part_001` lines 59-69: the attribute columns are
kept as raw strings, the two score columns are parsed numbers. -/
structure CSVRow where
  county : String
  isMetro : String
  numKids : String
  numAdults : String
  HighFood : String
  LowTransportation : String
  HighHealthConditions : String
  affordability_score : ℚ
  prosperity_score : ℚ
deriving DecidableEq

/-- The trimmed comma-separated fields of one CSV line
(`line.split(',')` followed by `parts.map(s => s.trim())`). -/
def csvParts (line : String) : List String :=
  (splitOnChar ',' line.data).map (fun p => jsTrim ⟨p⟩)

/-- One iteration of the `lines.forEach` body of `loadCSVData`
(`src/unnamed/part_001` lines 88-110): `none` means the line is skipped. -/
def parseCSVLine (line : String) : Option CSVRow :=
  if jsTrim line = "" then none
  else
    let parts := csvParts line
    if parts.length < 9 then none
    else
      let county := parts.getD 0 ""
      let isMetro := parts.getD 1 ""
      let numKids := parts.getD 2 ""
      let numAdults := parts.getD 3 ""
      if county = "" ∨ county = "county" ∨ isMetro = "" ∨ numKids = "" ∨ numAdults = "" then none
      else
        some (CSVRow.mk county isMetro numKids numAdults
          (parts.getD 4 "") (parts.getD 5 "") (parts.getD 6 "")
          ((parseFloatJS (parts.getD 7 "")).getD 0)
          ((parseFloatJS (parts.getD 8 "")).getD 0))

/-- `loadCSVData` of `src/unnamed/part_001` lines 84-110 (identical parsing in
`src/frontend/src/MapVisualization.tsx` lines 84-110): split the text on
newlines, skip the header line, parse each remaining line, keeping the rows
that survive.  Total: no input throws. -/
def loadCSVData (text : String) : List CSVRow :=
  (((splitOnChar '\n' text.data).map (fun l => (⟨l⟩ : String))).drop 1).filterMap parseCSVLine

/-- The questionnaire state of `src/unnamed/part_001` (`formData`,
lines 28-35): `isMetro = none` models the `null` "both" wildcard. -/
structure FormData where
  isMetro : Option Bool
  numKids : Int
  numAdults : Int
  HighFood : Bool
  LowTransportation : Bool
  HighHealthConditions : Bool
deriving DecidableEq

/-- The questionnaire state of `src/frontend/src/MapVisualization.tsx`
(lines 28-35), where `isMetro` is a plain boolean. -/
structure FormDataFE where
  isMetro : Bool
  numKids : Int
  numAdults : Int
  HighFood : Bool
  LowTransportation : Bool
  HighHealthConditions : Bool
deriving DecidableEq

/-- The matcher's per-county output (`CountyData`, lines 20-24). -/
structure CountyData where
  county : String
  affordability_score : ℚ
  prosperity_score : ℚ
deriving DecidableEq

/-- The row-matching predicate of `src/unnamed/part_001` lines 130-156. -/
def rowMatches (formData : FormData) (row : CSVRow) : Bool :=
  let csvIsMetro := jsToUpperStr (jsTrim row.isMetro)
  let isMetroMatch :=
    match formData.isMetro with
    | none => true
    | some b => csvIsMetro == (if b then "TRUE" else "FALSE")
  let effectiveNumKids : Int := if formData.numKids ≥ 3 then 3 else formData.numKids
  let numKidsMatch :=
    match parseIntJS (jsTrim row.numKids) with
    | some n => n == effectiveNumKids
    | none => false
  let numAdultsMatch :=
    match parseIntJS (jsTrim row.numAdults) with
    | some n => n == formData.numAdults
    | none => false
  let highFoodMatch := jsToUpperStr (jsTrim row.HighFood) == (if formData.HighFood then "Y" else "N")
  let lowTranspMatch :=
    jsToUpperStr (jsTrim row.LowTransportation) == (if formData.LowTransportation then "Y" else "N")
  let highHealthMatch :=
    jsToUpperStr (jsTrim row.HighHealthConditions) == (if formData.HighHealthConditions then "Y" else "N")
  isMetroMatch && numKidsMatch && numAdultsMatch && highFoodMatch && lowTranspMatch && highHealthMatch

/-- The row-matching predicate of `src/frontend/src/MapVisualization.tsx`
lines 129-152 (identical except that `isMetro` is never a wildcard). -/
def rowMatchesFE (formData : FormDataFE) (row : CSVRow) : Bool :=
  let csvIsMetro := jsToUpperStr (jsTrim row.isMetro)
  let isMetroMatch := csvIsMetro == (if formData.isMetro then "TRUE" else "FALSE")
  let effectiveNumKids : Int := if formData.numKids ≥ 3 then 3 else formData.numKids
  let numKidsMatch :=
    match parseIntJS (jsTrim row.numKids) with
    | some n => n == effectiveNumKids
    | none => false
  let numAdultsMatch :=
    match parseIntJS (jsTrim row.numAdults) with
    | some n => n == formData.numAdults
    | none => false
  let highFoodMatch := jsToUpperStr (jsTrim row.HighFood) == (if formData.HighFood then "Y" else "N")
  let lowTranspMatch :=
    jsToUpperStr (jsTrim row.LowTransportation) == (if formData.LowTransportation then "Y" else "N")
  let highHealthMatch :=
    jsToUpperStr (jsTrim row.HighHealthConditions) == (if formData.HighHealthConditions then "Y" else "N")
  isMetroMatch && numKidsMatch && numAdultsMatch && highFoodMatch && lowTranspMatch && highHealthMatch

/-- JS `Map.get`: insertion-ordered association list lookup. -/
def mapGet {α : Type} : List (String × α) → String → Option α
  | [], _ => none
  | (k, v) :: rest, key => if k = key then some v else mapGet rest key

/-- JS `Map.set`: replace in place if the key exists, else append. -/
def mapSet {α : Type} : List (String × α) → String → α → List (String × α)
  | [], key, v => [(key, v)]
  | (k, w) :: rest, key, v =>
    if k = key then (k, v) :: rest else (k, w) :: mapSet rest key v

/-- One iteration of the `matchingRows.forEach` body of
`src/unnamed/part_001` lines 165-185: first occurrence of a county inserts its
scores, later occurrences update to the running mean and bump the per-county
counter. -/
def processRow (acc : List (String × CountyData) × List (String × Nat)) (row : CSVRow) :
    List (String × CountyData) × List (String × Nat) :=
  match mapGet acc.1 row.county with
  | some existing =>
    let prev : Nat :=
      match mapGet acc.2 row.county with
      | some n => if n = 0 then 1 else n
      | none => 1
    let count : Nat := prev + 1
    (mapSet acc.1 row.county
      (CountyData.mk row.county
        ((existing.affordability_score * ((count : ℚ) - 1) + row.affordability_score) / (count : ℚ))
        ((existing.prosperity_score * ((count : ℚ) - 1) + row.prosperity_score) / (count : ℚ))),
     mapSet acc.2 row.county count)
  | none =>
    (mapSet acc.1 row.county (CountyData.mk row.county row.affordability_score row.prosperity_score),
     mapSet acc.2 row.county 1)

/-- The matcher effect of `src/unnamed/part_001` lines 126-193: filter the
rows by the questionnaire, then aggregate into the county-score map
(mean-merging repeated counties). -/
def matchRows (rows : List CSVRow) (formData : FormData) : List (String × CountyData) :=
  ((rows.filter (rowMatches formData)).foldl processRow ([], [])).1

/-- One iteration of the `matchingRows.forEach` body of
`src/frontend/src/MapVisualization.tsx` lines 161-170: first seen wins, no
averaging. -/
def processRowFE (acc : List (String × CountyData)) (row : CSVRow) :
    List (String × CountyData) :=
  match mapGet acc row.county with
  | some _ => acc
  | none => mapSet acc row.county (CountyData.mk row.county row.affordability_score row.prosperity_score)

/-- The matcher effect of `src/frontend/src/MapVisualization.tsx`
lines 125-178. -/
def matchRowsFE (rows : List CSVRow) (formData : FormDataFE) : List (String × CountyData) :=
  (rows.filter (rowMatchesFE formData)).foldl processRowFE []

/-- The score type selected in the UI (`src/unnamed/part_001` line 27). -/
inductive ScoreType
  | affordability
  | prosperity
  | recommendation
deriving DecidableEq

/-- The `stateFipsToAbbrev` lookup table of `src/unnamed/part_001`
lines 224-235. -/
def stateFipsTable : List (String × String) :=
  [("01", "AL"), ("02", "AK"), ("04", "AZ"), ("05", "AR"), ("06", "CA"),
   ("08", "CO"), ("09", "CT"), ("10", "DE"), ("11", "DC"), ("12", "FL"),
   ("13", "GA"), ("15", "HI"), ("16", "ID"), ("17", "IL"), ("18", "IN"),
   ("19", "IA"), ("20", "KS"), ("21", "KY"), ("22", "LA"), ("23", "ME"),
   ("24", "MD"), ("25", "MA"), ("26", "MI"), ("27", "MN"), ("28", "MS"),
   ("29", "MO"), ("30", "MT"), ("31", "NE"), ("32", "NV"), ("33", "NH"),
   ("34", "NJ"), ("35", "NM"), ("36", "NY"), ("37", "NC"), ("38", "ND"),
   ("39", "OH"), ("40", "OK"), ("41", "OR"), ("42", "PA"), ("44", "RI"),
   ("45", "SC"), ("46", "SD"), ("47", "TN"), ("48", "TX"), ("49", "UT"),
   ("50", "VT"), ("51", "VA"), ("53", "WA"), ("54", "WV"), ("55", "WI"),
   ("56", "WY")]

/-- The two geometry-feature properties the joiner reads (`NAME`, `GEO_ID`). -/
structure GeoFeature where
  NAME : String
  GEO_ID : String
deriving DecidableEq

/-- The properties the joiner attaches to a processed feature
(`src/unnamed/part_001` lines 292-303). -/
structure GeoProps where
  score : ℚ
  affordabilityScore : ℚ
  prosperityScore : ℚ
  fullName : String
  countyName : String
  stateAbbrev : String
deriving DecidableEq

/-- JS `.slice(0, 2)` on a string. -/
def sliceTwo (s : String) : String := ⟨s.data.take 2⟩

/-- `feature.properties?.GEO_ID` → `fips.split('US')[1]?.slice(0, 2) || ''` →
`stateFipsToAbbrev[stateFips] || ''` (lines 240-242). -/
def featureStateAbbrev (feature : GeoFeature) : String :=
  let stateFips : String := ⟨((splitOnUS feature.GEO_ID.data).getD 1 []).take 2⟩
  (mapGet stateFipsTable stateFips).getD ""

/-- The `for (const [csvKey, value] of countyScores.entries())` loop of
`src/unnamed/part_001` lines 252-269: first entry whose trailing state token
equals the feature's state and whose normalized county name equals / contains
/ is contained in the feature's normalized name. -/
def findScore : List (String × CountyData) → String → String → Option CountyData
  | [], _, _ => none
  | (csvKey, value) :: rest, stateAbbrevUpper, normalizedCounty =>
    let csvParts := splitOnChar ' ' csvKey.data
    let csvCounty : String := ⟨joinSpace csvParts.dropLast⟩
    let csvState : String := ⟨csvParts.getLastD []⟩
    if csvState = stateAbbrevUpper then
      let normalizedCsvCounty := normalizeCountyName csvCounty
      if normalizedCsvCounty = normalizedCounty
          || listContains normalizedCsvCounty.data normalizedCounty.data
          || listContains normalizedCounty.data normalizedCsvCounty.data
      then some value
      else findScore rest stateAbbrevUpper normalizedCounty
    else findScore rest stateAbbrevUpper normalizedCounty

/-- The score lookup performed for one feature by the joiner
(lines 245-269): normalized feature name + uppercased 2-letter state. -/
def featureLookup (countyScores : List (String × CountyData)) (feature : GeoFeature) :
    Option CountyData :=
  findScore countyScores (sliceTwo (jsToUpperStr (featureStateAbbrev feature)))
    (normalizeCountyName feature.NAME)

/-- The derived recommendation score of `src/unnamed/part_001` lines 275-285:
min-max normalize both scores over `[-1, 2]` with clamping, invert
affordability, average, rescale back to `[-1, 2]`. -/
def recommendationScore (affordabilityScore prosperityScore : ℚ) : ℚ :=
  let minScore : ℚ := -1
  let maxScore : ℚ := 2
  let normalizedAffordability := max 0 (min 1 ((affordabilityScore - minScore) / (maxScore - minScore)))
  let normalizedProsperity := max 0 (min 1 ((prosperityScore - minScore) / (maxScore - minScore)))
  let invertedAffordability := 1 - normalizedAffordability
  let recommendationNormalized := (invertedAffordability + normalizedProsperity) / 2
  recommendationNormalized * (maxScore - minScore) + minScore

/-- The per-feature body of the joiner (`data.features.map` callback,
`src/unnamed/part_001` lines 238-304). -/
def processFeature (countyScores : List (String × CountyData)) (scoreType : ScoreType)
    (feature : GeoFeature) : GeoProps :=
  let countyName := feature.NAME
  let stateAbbrev := featureStateAbbrev feature
  let fullName := jsTrim (countyName ++ " " ++ stateAbbrev)
  let found := featureLookup countyScores feature
  let affordabilityScore : ℚ :=
    match found with
    | some v => v.affordability_score
    | none => 0
  let prosperityScore : ℚ :=
    match found with
    | some v => v.prosperity_score
    | none => 0
  let score : ℚ :=
    match scoreType with
    | ScoreType.recommendation => recommendationScore affordabilityScore prosperityScore
    | ScoreType.affordability => affordabilityScore
    | ScoreType.prosperity => prosperityScore
  GeoProps.mk score affordabilityScore prosperityScore fullName countyName stateAbbrev

/-- `"rgb(r, g, b)"` string construction used by `getColor`. -/
def rgbString (r g b : ℤ) : String :=
  "rgb(" ++ toString r ++ ", " ++ toString g ++ ", " ++ toString b ++ ")"

/-- `getColor` of `src/unnamed/part_001` lines 325-360: 0 maps to the fixed
neutral color, otherwise clamp-normalize over `[-1, 2]` (inverting for
affordability) and interpolate red → yellow → green in two halves. -/
def getColor (scoreType : ScoreType) (score : ℚ) : String :=
  if score = 0 then "#e8e3d8"
  else
    let minScore : ℚ := -1
    let maxScore : ℚ := 2
    let normalized0 := max 0 (min 1 ((score - minScore) / (maxScore - minScore)))
    let normalized := if scoreType = ScoreType.affordability then 1 - normalized0 else normalized0
    if normalized < 1/2 then
      let t := normalized * 2
      rgbString (Rat.floor (220 + t * (234 - 220))) (Rat.floor (38 + t * (179 - 38)))
        (Rat.floor (38 + t * (8 - 38)))
    else
      let t := (normalized - 1/2) * 2
      rgbString (Rat.floor (234 + t * (34 - 234))) (Rat.floor (179 + t * (197 - 179)))
        (Rat.floor (8 + t * (94 - 8)))

/-- The effect of one `processRow` iteration on the single county `c`:
used to localize the matcher's fold to the rows of one county. -/
def localStep (st : Option CountyData × Option Nat) (row : CSVRow) :
    Option CountyData × Option Nat :=
  match st.1 with
  | some existing =>
    let prev : Nat :=
      match st.2 with
      | some n => if n = 0 then 1 else n
      | none => 1
    let count : Nat := prev + 1
    (some (CountyData.mk row.county
      ((existing.affordability_score * ((count : ℚ) - 1) + row.affordability_score) / (count : ℚ))
      ((existing.prosperity_score * ((count : ℚ) - 1) + row.prosperity_score) / (count : ℚ))),
     some count)
  | none => (some (CountyData.mk row.county row.affordability_score row.prosperity_score), some 1)

/-- Conversion of the frontend questionnaire into the `part_001`
questionnaire: the boolean metro answer, never the wildcard. -/
def toFormData (fe : FormDataFE) : FormData :=
  FormData.mk (some fe.isMetro) fe.numKids fe.numAdults fe.HighFood fe.LowTransportation
    fe.HighHealthConditions

/-- No two adjacent whitespace characters. -/
def noTwoWS (l : List Char) : Prop :=
  List.Chain' (fun a b => ¬(isWSChar a = true ∧ isWSChar b = true)) l

-- ------------------------------------------------------------------
-- helper lemmas
-- ------------------------------------------------------------------

theorem mapGet_mapSet {α : Type} (m : List (String × α)) (k c : String) (v : α) :
    mapGet (mapSet m k v) c = if k = c then some v else mapGet m c := by
  induction m with
  | nil => simp [mapSet, mapGet]
  | cons hd tl ih =>
    obtain ⟨k', w⟩ := hd
    by_cases h1 : k' = k
    · subst h1
      by_cases h2 : k' = c <;> simp [mapSet, mapGet, h2]
    · by_cases h2 : k' = c
      · have h3 : ¬ k = c := fun hc => h1 (h2.trans hc.symm)
        have h4 : ¬ c = k := fun hc => h3 hc.symm
        simp [mapSet, mapGet, h1, h2, h3, h4]
      · simp [mapSet, mapGet, h1, h2, ih]

theorem processRow_localize (c : String) (acc : List (String × CountyData) × List (String × Nat))
    (row : CSVRow) :
    (mapGet (processRow acc row).1 c, mapGet (processRow acc row).2 c) =
      if row.county = c then localStep (mapGet acc.1 c, mapGet acc.2 c) row
      else (mapGet acc.1 c, mapGet acc.2 c) := by
  by_cases hc : row.county = c
  · subst hc
    unfold processRow localStep
    cases h : mapGet acc.1 row.county <;>
      simp [h, mapGet_mapSet]
  · unfold processRow
    cases h : mapGet acc.1 row.county <;>
      simp [mapGet_mapSet, hc]

theorem foldl_localize (c : String) (ms : List CSVRow) :
    ∀ acc : List (String × CountyData) × List (String × Nat),
      (mapGet (ms.foldl processRow acc).1 c, mapGet (ms.foldl processRow acc).2 c) =
        (ms.filter (fun r => r.county == c)).foldl localStep (mapGet acc.1 c, mapGet acc.2 c) := by
  induction ms with
  | nil => intro acc; simp
  | cons row rest ih =>
    intro acc
    by_cases h : row.county = c
    · have := processRow_localize c acc row
      rw [if_pos h] at this
      simp only [List.foldl_cons, List.filter_cons, h, beq_self_eq_true, if_true]
      rw [ih (processRow acc row), this]
    · have := processRow_localize c acc row
      rw [if_neg h] at this
      simp only [List.foldl_cons, List.filter_cons]
      rw [if_neg (by simpa using h)]
      rw [ih (processRow acc row), this]

-- ------------------------------------------------------------------
-- claim theorems
-- ------------------------------------------------------------------

/-- Claim C7: the color mapper at a score of exactly 0 returns the fixed
neutral color `#e8e3d8`, and the result does not depend on the score type. -/
theorem C7_color_zero_neutral :
    ∀ st st' : ScoreType, getColor st 0 = "#e8e3d8" ∧ getColor st 0 = getColor st' 0 := by
  intro st st'
  constructor <;> simp [getColor]

/-- Claim C5: the recommendation score at `affordability = -1, prosperity = 2`
is the maximum 2 of the scale, and at `affordability = 2, prosperity = -1` it
is the minimum -1. -/
theorem C5_recommendation_extremes :
    recommendationScore (-1) 2 = 2 ∧ recommendationScore 2 (-1) = -1 := by
  constructor <;> norm_num [recommendationScore, min_def, max_def]

/-- Claim C9: the normalizer strips `" county"` and `" parish"` occurrences
(case-insensitively) anywhere in the string, not only as a trailing suffix:
`"Lake County Park"` normalizes to `"lake park"`, and a `" county"` occurrence
at any scan position is deleted. -/
theorem C9_interior_suffix_stripping :
    normalizeCountyName "Lake County Park" = "lake park" ∧
    normalizeCountyName "Lake COUNTY Park" = "lake park" ∧
    normalizeCountyName "Cane PARISH River Parish" = "cane river" ∧
    ∀ l : List Char,
      removeCounty (' ' :: 'c' :: 'o' :: 'u' :: 'n' :: 't' :: 'y' :: l) = removeCounty l := by
  exact ⟨by decide, by decide, by decide, fun l => rfl⟩

/-- Claim C2 counterexample: normalization is not idempotent; on
`"a count countyy"` one pass yields `"a county"` and a second pass strips
further to `"a"`. -/
theorem C2_counterexample :
    ¬ (normalizeCountyName (normalizeCountyName "a count countyy") =
        normalizeCountyName "a count countyy") := by decide

/-- Claim C6: any kid count at least 3 collapses to the bucket 3: with
`isMetro = false, numAdults = 1, highFood = true` and the other flags false,
answering 5 kids filters exactly the rows that answering 3 kids does, and the
matcher outputs are identical. -/
theorem C6_numKids_bucket_collapse (rows : List CSVRow) :
    rows.filter (rowMatches (FormData.mk (some false) 5 1 true false false)) =
      rows.filter (rowMatches (FormData.mk (some false) 3 1 true false false)) ∧
    matchRows rows (FormData.mk (some false) 5 1 true false false) =
      matchRows rows (FormData.mk (some false) 3 1 true false false) := by
  have h : rowMatches (FormData.mk (some false) 5 1 true false false) =
      rowMatches (FormData.mk (some false) 3 1 true false false) := by
    funext row
    rfl
  exact ⟨by rw [h], by unfold matchRows; rw [h]⟩

/-- Claim C4: with the metro wildcard (`isMetro = null`), a county whose rows
in the list are exactly one matching metro row and one matching rural row
(with differing scores) gets a `CountyData` holding the arithmetic mean of the
two rows' scores in both fields. -/
theorem C4_wildcard_mean_merge (rows : List CSVRow) (ans : FormData) (c : String)
    (r1 r2 : CSVRow)
    (hwild : ans.isMetro = none)
    (hcounty : rows.filter (fun r => r.county == c) = [r1, r2])
    (h1 : rowMatches ans r1 = true)
    (h2 : rowMatches ans r2 = true)
    (hmetro1 : jsToUpperStr (jsTrim r1.isMetro) = "TRUE")
    (hmetro2 : jsToUpperStr (jsTrim r2.isMetro) = "FALSE")
    (hdiff : r1.affordability_score ≠ r2.affordability_score ∨
      r1.prosperity_score ≠ r2.prosperity_score) :
    mapGet (matchRows rows ans) c =
      some (CountyData.mk c ((r1.affordability_score + r2.affordability_score) / 2)
        ((r1.prosperity_score + r2.prosperity_score) / 2)) := by
  have hr2 : r2.county = c := by
    have hmem : r2 ∈ rows.filter (fun r => r.county == c) := by
      rw [hcounty]; simp
    simpa using List.of_mem_filter hmem
  have hcomm : (rows.filter (rowMatches ans)).filter (fun r => r.county == c)
      = (rows.filter (fun r => r.county == c)).filter (rowMatches ans) := by
    rw [List.filter_filter, List.filter_filter]
    exact List.filter_congr (fun a _ => by rw [Bool.and_comm])
  have hms : (rows.filter (rowMatches ans)).filter (fun r => r.county == c) = [r1, r2] := by
    rw [hcomm, hcounty]
    simp [List.filter_cons, h1, h2]
  have hpair := foldl_localize c (rows.filter (rowMatches ans)) ([], [])
  rw [hms] at hpair
  have hfst := congrArg Prod.fst hpair
  dsimp only at hfst
  simp only [matchRows]
  rw [hfst]
  simp only [List.foldl_cons, List.foldl_nil, mapGet, localStep]
  rw [hr2]
  norm_num

/-- The two matchers agree step by step when every processed county is fresh:
the mean-merge branch is never taken. -/
theorem fold_fe_eq (ms : List CSVRow) :
    ∀ (accF : List (String × CountyData)) (accC : List (String × Nat)),
      (ms.map (fun r => r.county)).Nodup →
      (∀ r ∈ ms, mapGet accF r.county = none) →
      (ms.foldl processRow (accF, accC)).1 = ms.foldl processRowFE accF := by
  induction ms with
  | nil => intro _ _ _ _; rfl
  | cons row rest ih =>
    intro accF accC hnd hfresh
    have h0 : mapGet accF row.county = none := hfresh row (List.mem_cons_self row rest)
    have hstep : processRow (accF, accC) row =
        (mapSet accF row.county
          (CountyData.mk row.county row.affordability_score row.prosperity_score),
         mapSet accC row.county 1) := by
      simp [processRow, h0]
    have hstepFE : processRowFE accF row =
        mapSet accF row.county
          (CountyData.mk row.county row.affordability_score row.prosperity_score) := by
      simp [processRowFE, h0]
    simp only [List.foldl_cons, hstep, hstepFE]
    have hnd' : (∀ x ∈ rest, ¬ x.county = row.county) ∧
        (List.map (fun r => r.county) rest).Nodup := by simpa using hnd
    apply ih
    · exact hnd'.2
    · intro r hr
      rw [mapGet_mapSet]
      have hne : ¬ row.county = r.county := fun he => hnd'.1 r hr he.symm
      rw [if_neg hne]
      exact hfresh r (List.mem_cons_of_mem _ hr)

/-- Claim C10: when the metro answer is a plain boolean and at most one row
per county matches, the frontend matcher (first seen wins) and the `part_001`
matcher (running-mean merge) return the same county-score map. -/
theorem C10_matcher_refinement (rows : List CSVRow) (fe : FormDataFE)
    (hnodup : ((rows.filter (rowMatchesFE fe)).map (fun r => r.county)).Nodup) :
    matchRowsFE rows fe = matchRows rows (toFormData fe) := by
  have hpred : rowMatchesFE fe = rowMatches (toFormData fe) := by
    funext row; rfl
  unfold matchRowsFE matchRows
  rw [← hpred]
  exact (fold_fe_eq (rows.filter (rowMatchesFE fe)) [] [] hnodup (fun r _ => rfl)).symm

/-- Claim C1 (amended): when the joiner finds no score-map entry for a
feature, the attached affordability and prosperity scores are 0 and the
displayed score is 0 for the affordability and prosperity score types; for
the recommendation score type the displayed score is the recommendation
formula at (0, 0), namely 1/2, not the 0 sentinel. -/
theorem C1_no_match_defaults (countyScores : List (String × CountyData)) (feature : GeoFeature)
    (h : featureLookup countyScores feature = none) (st : ScoreType) :
    (processFeature countyScores st feature).affordabilityScore = 0 ∧
    (processFeature countyScores st feature).prosperityScore = 0 ∧
    (processFeature countyScores ScoreType.affordability feature).score = 0 ∧
    (processFeature countyScores ScoreType.prosperity feature).score = 0 ∧
    (processFeature countyScores ScoreType.recommendation feature).score = 1/2 := by
  refine ⟨?_, ?_, ?_, ?_, ?_⟩
  · simp [processFeature, h]
  · simp [processFeature, h]
  · simp [processFeature, h]
  · simp [processFeature, h]
  · simp [processFeature, h, recommendationScore, min_def, max_def]
    norm_num

/-- Claim C1 counterexample: a feature with no matching score-map entry
displays score 1/2 under the recommendation score type, not the 0 sentinel. -/
theorem C1_counterexample :
    featureLookup [("Fairfax County VA", CountyData.mk "Fairfax County VA" 1 1)]
        (GeoFeature.mk "Lake" "0500000US06037") = none ∧
    (processFeature [("Fairfax County VA", CountyData.mk "Fairfax County VA" 1 1)]
        ScoreType.recommendation (GeoFeature.mk "Lake" "0500000US06037")).score = 1/2 ∧
    (1/2 : ℚ) ≠ 0 := by
  have h : featureLookup [("Fairfax County VA", CountyData.mk "Fairfax County VA" 1 1)]
      (GeoFeature.mk "Lake" "0500000US06037") = none := by decide
  refine ⟨h, ?_, by norm_num⟩
  simp [processFeature, h, recommendationScore, min_def, max_def]
  norm_num

/-- Claim C8: end to end, the single row `("Fairfax County VA", TRUE, 1, 2,
N, N, N, 0.8, 1.5)` with exactly matching answers produces the single-entry
map `"Fairfax County VA" ↦ (0.8, 1.5)`, and joining it against a feature
named `"Fairfax"` with state FIPS 51 (VA) displays score 0.8 under the
affordability score type. -/
theorem C8_end_to_end :
    matchRows [CSVRow.mk "Fairfax County VA" "TRUE" "1" "2" "N" "N" "N" 0.8 1.5]
        (FormData.mk (some true) 1 2 false false false) =
      [("Fairfax County VA", CountyData.mk "Fairfax County VA" 0.8 1.5)] ∧
    (processFeature
        (matchRows [CSVRow.mk "Fairfax County VA" "TRUE" "1" "2" "N" "N" "N" 0.8 1.5]
          (FormData.mk (some true) 1 2 false false false))
        ScoreType.affordability (GeoFeature.mk "Fairfax" "0500000US51059")).score = 0.8 := by
  have e8 : (0.8 : ℚ) = mkRat 4 5 := by norm_num [Rat.mkRat_eq_div]
  have e15 : (1.5 : ℚ) = mkRat 3 2 := by norm_num [Rat.mkRat_eq_div]
  rw [e8, e15]
  exact ⟨by decide, by decide⟩

/-- Claim C3 (amended): the loader is total; after the skipped header a
non-blank line is discarded if and only if it has fewer than 9 comma-separated
fields, or its trimmed county field is empty or literally `"county"`, or any
of its trimmed isMetro/numKids/numAdults fields is empty; on kept lines each
trailing score column is independently `parseFloat`-parsed with 0 as the
fallback. -/
theorem C3_loader_amended :
    (∀ line : String,
      parseCSVLine line = none ↔
        (jsTrim line = "" ∨ (csvParts line).length < 9 ∨
          (csvParts line).getD 0 "" = "" ∨ (csvParts line).getD 0 "" = "county" ∨
          (csvParts line).getD 1 "" = "" ∨ (csvParts line).getD 2 "" = "" ∨
          (csvParts line).getD 3 "" = "")) ∧
    (∀ (line : String) (row : CSVRow), parseCSVLine line = some row →
        row.affordability_score = (parseFloatJS ((csvParts line).getD 7 "")).getD 0 ∧
        row.prosperity_score = (parseFloatJS ((csvParts line).getD 8 "")).getD 0) := by
  constructor
  · intro line
    simp only [parseCSVLine]
    split_ifs with hb hl hc
    · simp [hb]
    · simp [hb, hl]
    · exact ⟨fun _ => Or.inr (Or.inr hc), fun _ => rfl⟩
    · push_neg at hc
      simp only [List.getD_eq_getElem?_getD] at hc
      simp [hb, hl]
      exact hc
  · intro line row h
    simp only [parseCSVLine] at h
    split_ifs at h with hb hl hc
    obtain rfl : _ = row := Option.some.inj h
    exact ⟨rfl, rfl⟩

/-- Claim C3 counterexample: a non-blank line with 9 fields whose county
field is non-empty and differs from the header token is still discarded,
because its isMetro field is empty. -/
theorem C3_counterexample :
    parseCSVLine "Fairfax County VA,,1,2,N,N,N,0.8,1.5" = none ∧
    jsTrim "Fairfax County VA,,1,2,N,N,N,0.8,1.5" ≠ "" ∧
    ¬ ((csvParts "Fairfax County VA,,1,2,N,N,N,0.8,1.5").length < 9) ∧
    (csvParts "Fairfax County VA,,1,2,N,N,N,0.8,1.5").getD 0 "" ≠ "" ∧
    (csvParts "Fairfax County VA,,1,2,N,N,N,0.8,1.5").getD 0 "" ≠ "county" := by decide

/-- Claim C3 witness: on the line `"a,TRUE,1,2,N,N,N,xyz,1.5"` the loader
keeps the row, the unparsable affordability column becomes 0 and the
prosperity column parses to 3/2. -/
theorem C3_loader_witness :
    parseCSVLine "a,TRUE,1,2,N,N,N,xyz,1.5" =
      some (CSVRow.mk "a" "TRUE" "1" "2" "N" "N" "N" 0 (mkRat 3 2)) ∧
    (CSVRow.mk "a" "TRUE" "1" "2" "N" "N" "N" 0 (mkRat 3 2)).affordability_score =
      (parseFloatJS ((csvParts "a,TRUE,1,2,N,N,N,xyz,1.5").getD 7 "")).getD 0 ∧
    (CSVRow.mk "a" "TRUE" "1" "2" "N" "N" "N" 0 (mkRat 3 2)).prosperity_score =
      (parseFloatJS ((csvParts "a,TRUE,1,2,N,N,N,xyz,1.5").getD 8 "")).getD 0 := by
  have hparts : csvParts "a,TRUE,1,2,N,N,N,xyz,1.5" =
      ["a", "TRUE", "1", "2", "N", "N", "N", "xyz", "1.5"] := by decide
  have hx : parseFloatJS "xyz" = none := by decide
  have h15 : parseFloatJS "1.5" = some (mkRat 3 2) := by
    simp [parseFloatJS, parseExp, natOfDigits, isWSChar, isDigitChar, List.dropWhile,
      List.takeWhile]
    norm_num [Rat.mkRat_eq_div]
  have h : parseCSVLine "a,TRUE,1,2,N,N,N,xyz,1.5" =
      some (CSVRow.mk "a" "TRUE" "1" "2" "N" "N" "N" 0 (mkRat 3 2)) := by
    simp only [parseCSVLine, hparts]
    rw [if_neg (by decide), if_neg (by decide), if_neg (by decide)]
    simp [hx, h15]
  exact ⟨h, (C3_loader_amended.2 _ _ h).1, (C3_loader_amended.2 _ _ h).2⟩

/-- Claim C1 witness: the no-match default theorem applied to a concrete
score map, feature and score type. -/
theorem C1_no_match_witness :
    featureLookup [("Fairfax County VA", CountyData.mk "Fairfax County VA" 1 1)]
        (GeoFeature.mk "Adams" "0500000US08001") = none ∧
    ((processFeature [("Fairfax County VA", CountyData.mk "Fairfax County VA" 1 1)]
        ScoreType.prosperity (GeoFeature.mk "Adams" "0500000US08001")).affordabilityScore = 0 ∧
      (processFeature [("Fairfax County VA", CountyData.mk "Fairfax County VA" 1 1)]
        ScoreType.prosperity (GeoFeature.mk "Adams" "0500000US08001")).prosperityScore = 0 ∧
      (processFeature [("Fairfax County VA", CountyData.mk "Fairfax County VA" 1 1)]
        ScoreType.affordability (GeoFeature.mk "Adams" "0500000US08001")).score = 0 ∧
      (processFeature [("Fairfax County VA", CountyData.mk "Fairfax County VA" 1 1)]
        ScoreType.prosperity (GeoFeature.mk "Adams" "0500000US08001")).score = 0 ∧
      (processFeature [("Fairfax County VA", CountyData.mk "Fairfax County VA" 1 1)]
        ScoreType.recommendation (GeoFeature.mk "Adams" "0500000US08001")).score = 1/2) :=
  ⟨by decide, C1_no_match_defaults _ _ (by decide) ScoreType.prosperity⟩

/-- Claim C4 witness: the wildcard mean-merge theorem applied to a concrete
metro/rural row pair for one county. -/
theorem C4_mean_merge_witness :
    (FormData.mk none 1 2 false false false).isMetro = none ∧
    ([CSVRow.mk "Fairfax County VA" "TRUE" "1" "2" "N" "N" "N" (mkRat 1 1) (mkRat 2 1),
      CSVRow.mk "Fairfax County VA" "FALSE" "1" "2" "N" "N" "N" (mkRat 3 1) (mkRat 4 1)].filter
        (fun r => r.county == "Fairfax County VA")) =
      [CSVRow.mk "Fairfax County VA" "TRUE" "1" "2" "N" "N" "N" (mkRat 1 1) (mkRat 2 1),
       CSVRow.mk "Fairfax County VA" "FALSE" "1" "2" "N" "N" "N" (mkRat 3 1) (mkRat 4 1)] ∧
    rowMatches (FormData.mk none 1 2 false false false)
        (CSVRow.mk "Fairfax County VA" "TRUE" "1" "2" "N" "N" "N" (mkRat 1 1) (mkRat 2 1)) = true ∧
    rowMatches (FormData.mk none 1 2 false false false)
        (CSVRow.mk "Fairfax County VA" "FALSE" "1" "2" "N" "N" "N" (mkRat 3 1) (mkRat 4 1)) = true ∧
    mapGet (matchRows
        [CSVRow.mk "Fairfax County VA" "TRUE" "1" "2" "N" "N" "N" (mkRat 1 1) (mkRat 2 1),
         CSVRow.mk "Fairfax County VA" "FALSE" "1" "2" "N" "N" "N" (mkRat 3 1) (mkRat 4 1)]
        (FormData.mk none 1 2 false false false)) "Fairfax County VA" =
      some (CountyData.mk "Fairfax County VA" ((mkRat 1 1 + mkRat 3 1) / 2)
        ((mkRat 2 1 + mkRat 4 1) / 2)) :=
  ⟨rfl, by decide, by decide, by decide,
    C4_wildcard_mean_merge
      [CSVRow.mk "Fairfax County VA" "TRUE" "1" "2" "N" "N" "N" (mkRat 1 1) (mkRat 2 1),
       CSVRow.mk "Fairfax County VA" "FALSE" "1" "2" "N" "N" "N" (mkRat 3 1) (mkRat 4 1)]
      (FormData.mk none 1 2 false false false) "Fairfax County VA"
      (CSVRow.mk "Fairfax County VA" "TRUE" "1" "2" "N" "N" "N" (mkRat 1 1) (mkRat 2 1))
      (CSVRow.mk "Fairfax County VA" "FALSE" "1" "2" "N" "N" "N" (mkRat 3 1) (mkRat 4 1))
      rfl (by decide) (by decide) (by decide) (by decide) (by decide) (Or.inl (by decide))⟩

/-- Claim C10 witness: the matcher-refinement theorem applied to a concrete
two-county row list with a boolean metro answer. -/
theorem C10_refinement_witness :
    (([CSVRow.mk "Fairfax County VA" "TRUE" "1" "2" "N" "N" "N" (mkRat 1 1) (mkRat 2 1),
       CSVRow.mk "Arlington County VA" "TRUE" "1" "2" "N" "N" "N" (mkRat 3 1) (mkRat 4 1)].filter
        (rowMatchesFE (FormDataFE.mk true 1 2 false false false))).map (fun r => r.county)).Nodup ∧
    matchRowsFE
        [CSVRow.mk "Fairfax County VA" "TRUE" "1" "2" "N" "N" "N" (mkRat 1 1) (mkRat 2 1),
         CSVRow.mk "Arlington County VA" "TRUE" "1" "2" "N" "N" "N" (mkRat 3 1) (mkRat 4 1)]
        (FormDataFE.mk true 1 2 false false false) =
      matchRows
        [CSVRow.mk "Fairfax County VA" "TRUE" "1" "2" "N" "N" "N" (mkRat 1 1) (mkRat 2 1),
         CSVRow.mk "Arlington County VA" "TRUE" "1" "2" "N" "N" "N" (mkRat 3 1) (mkRat 4 1)]
        (toFormData (FormDataFE.mk true 1 2 false false false)) :=
  ⟨by decide, C10_matcher_refinement _ _ (by decide)⟩

-- lemmas toward the amended idempotence of normalization (claim C2)

theorem char_toNat_ofNat_small (n : Nat) (h : n < 128) : (Char.ofNat n).toNat = n := by
  rw [Char.ofNat, dif_pos]
  · rfl
  · exact Or.inl (by omega)

theorem jsToLower_idem (c : Char) : jsToLower (jsToLower c) = jsToLower c := by
  unfold jsToLower
  by_cases h : 65 ≤ c.toNat ∧ c.toNat ≤ 90
  · rw [if_pos h, if_neg]
    rw [char_toNat_ofNat_small (c.toNat + 32) (by omega)]
    omega
  · rw [if_neg h, if_neg h]

theorem mem_collapseWS (l : List Char) :
    ∀ c ∈ collapseWS l, c = ' ' ∨ (c ∈ l ∧ isWSChar c = false) := by
  induction l using collapseWS.induct with
  | case1 => intro c hc; cases hc
  | case2 c1 h =>
    intro c hc
    rw [collapseWS, if_pos h] at hc
    left
    simpa using hc
  | case3 c1 h =>
    intro c hc
    rw [collapseWS, if_neg h] at hc
    right
    have hcc : c = c1 := by simpa using hc
    rw [hcc]
    exact ⟨List.mem_cons_self _ _, by simpa using h⟩
  | case4 c1 c2 rest h ih =>
    intro c hc
    rw [collapseWS, if_pos h] at hc
    rcases ih c hc with h1 | ⟨h1, h2⟩
    · exact Or.inl h1
    · exact Or.inr ⟨List.mem_cons_of_mem _ h1, h2⟩
  | case5 c1 c2 rest h ih =>
    intro c hc
    rw [collapseWS, if_neg h] at hc
    rcases List.mem_cons.mp hc with h1 | h1
    · by_cases hw : isWSChar c1 = true
      · rw [if_pos hw] at h1
        exact Or.inl h1
      · rw [if_neg hw] at h1
        rw [h1]
        exact Or.inr ⟨List.mem_cons_self _ _, by simpa using hw⟩
    · rcases ih c h1 with h2 | ⟨h2, h3⟩
      · exact Or.inl h2
      · exact Or.inr ⟨List.mem_cons_of_mem _ h2, h3⟩

theorem collapseWS_head (c : Char) (l : List Char) :
    (collapseWS (c :: l)).head? = some (if isWSChar c then ' ' else c) := by
  induction l generalizing c with
  | nil =>
    rw [collapseWS]
    by_cases h : isWSChar c = true <;> simp [h]
  | cons c2 rest ih =>
    rw [collapseWS]
    by_cases h : (isWSChar c && isWSChar c2) = true
    · rw [if_pos h]
      rw [ih c2]
      have h1 : isWSChar c = true := by
        have := h
        simp at this
        exact this.1
      have h2 : isWSChar c2 = true := by
        have := h
        simp at this
        exact this.2
      rw [if_pos h1, if_pos h2]
    · rw [if_neg h]
      rfl

theorem noTwoWS_collapseWS (l : List Char) : noTwoWS (collapseWS l) := by
  unfold noTwoWS
  induction l using collapseWS.induct with
  | case1 => simp [collapseWS]
  | case2 c1 h => rw [collapseWS, if_pos h]; simp
  | case3 c1 h => rw [collapseWS, if_neg h]; simp
  | case4 c1 c2 rest h ih =>
    rw [collapseWS, if_pos h]
    exact ih
  | case5 c1 c2 rest h ih =>
    rw [collapseWS, if_neg h]
    rw [List.chain'_cons']
    refine ⟨?_, ih⟩
    intro y hy
    rw [collapseWS_head c2 rest] at hy
    by_cases h1 : isWSChar c1 = true
    · have h2 : isWSChar c2 = false := by
        by_cases h2' : isWSChar c2 = true
        · exact absurd (by rw [h1, h2']; rfl) h
        · simpa using h2'
      have hy' : c2 = y := by simpa [h2] using hy
      rw [if_pos h1, ← hy']
      rintro ⟨_, hcon⟩
      rw [h2] at hcon
      cases hcon
    · rw [if_neg h1]
      rintro ⟨hcon, _⟩
      exact h1 hcon

theorem collapseWS_eq_self (l : List Char) :
    (∀ c ∈ l, isWSChar c = true → c = ' ') → noTwoWS l → collapseWS l = l := by
  unfold noTwoWS
  induction l using collapseWS.induct with
  | case1 => intro _ _; rw [collapseWS]
  | case2 c1 h =>
    intro hws _
    rw [collapseWS, if_pos h, hws c1 (List.mem_cons_self _ _) h]
  | case3 c1 h =>
    intro _ _
    rw [collapseWS, if_neg h]
  | case4 c1 c2 rest h ih =>
    intro hws hch
    have hpair := (List.chain'_cons'.mp hch).1 c2 rfl
    have h1 : isWSChar c1 = true ∧ isWSChar c2 = true := by simpa using h
    exact absurd h1 hpair
  | case5 c1 c2 rest h ih =>
    intro hws hch
    rw [collapseWS, if_neg h]
    have hx : (if isWSChar c1 then ' ' else c1) = c1 := by
      by_cases h1 : isWSChar c1 = true
      · rw [if_pos h1, hws c1 (List.mem_cons_self _ _) h1]
      · rw [if_neg h1]
    rw [hx]
    rw [ih (fun c hc hw => hws c (List.mem_cons_of_mem _ hc) hw) (List.Chain'.tail hch)]

theorem removeCounty_cons_ne (c : Char) (rest : List Char)
    (h : ∀ r, c = ' ' → rest = 'c' :: 'o' :: 'u' :: 'n' :: 't' :: 'y' :: r → False) :
    removeCounty (c :: rest) = c :: removeCounty rest := by
  rw [removeCounty.eq_def]
  split
  · next r heq =>
    exfalso
    injection heq with h1 h2
    exact h r h1 h2
  · next c' r heq =>
    injection heq with h1 h2
    subst h1
    subst h2
    rfl
  · next heq => exact absurd heq (by simp)

theorem removeCounty_nil : removeCounty [] = [] := by
  rw [removeCounty.eq_def]

theorem removeCounty_sublist (l : List Char) : (removeCounty l).Sublist l := by
  induction l using removeCounty.induct with
  | case1 rest ih =>
    rw [removeCounty]
    exact ih.trans (List.IsSuffix.sublist ⟨[' ', 'c', 'o', 'u', 'n', 't', 'y'], rfl⟩)
  | case2 c rest h ih =>
    rw [removeCounty_cons_ne c rest h]
    exact ih.cons₂ c
  | case3 => rw [removeCounty_nil]

theorem noTwoWS_removeCounty (l : List Char) :
    noTwoWS l →
      noTwoWS (removeCounty l) ∧
      (∀ a, (removeCounty l).head? = some a → isWSChar a = true →
        ∃ b, l.head? = some b ∧ isWSChar b = true) := by
  unfold noTwoWS
  induction l using removeCounty.induct with
  | case1 rest ih =>
    intro h
    rw [removeCounty]
    have hrest := h.tail.tail.tail.tail.tail.tail.tail
    obtain ⟨ih1, _⟩ := ih hrest
    refine ⟨ih1, ?_⟩
    intro a _ _
    exact ⟨' ', rfl, by decide⟩
  | case2 c rest hne ih =>
    intro h
    rw [removeCounty_cons_ne c rest hne]
    obtain ⟨ih1, ih2⟩ := ih (List.Chain'.tail h)
    constructor
    · rw [List.chain'_cons']
      refine ⟨?_, ih1⟩
      intro y hy
      rintro ⟨hc, hyws⟩
      obtain ⟨b, hb, hbws⟩ := ih2 y (by simpa using hy) hyws
      exact (List.chain'_cons'.mp h).1 b (by simpa using hb) ⟨hc, hbws⟩
    · intro a ha hws
      have hca : c = a := by simpa using ha
      exact ⟨c, rfl, by rw [hca]; exact hws⟩
  | case3 =>
    intro _
    rw [removeCounty_nil]
    exact ⟨List.chain'_nil, fun a ha => by cases ha⟩

theorem removeParish_cons_ne (c : Char) (rest : List Char)
    (h : ∀ r, c = ' ' → rest = 'p' :: 'a' :: 'r' :: 'i' :: 's' :: 'h' :: r → False) :
    removeParish (c :: rest) = c :: removeParish rest := by
  rw [removeParish.eq_def]
  split
  · next r heq =>
    exfalso
    injection heq with h1 h2
    exact h r h1 h2
  · next c' r heq =>
    injection heq with h1 h2
    subst h1
    subst h2
    rfl
  · next heq => exact absurd heq (by simp)

theorem removeParish_nil : removeParish [] = [] := by
  rw [removeParish.eq_def]

theorem removeParish_sublist (l : List Char) : (removeParish l).Sublist l := by
  induction l using removeParish.induct with
  | case1 rest ih =>
    rw [removeParish]
    exact ih.trans (List.IsSuffix.sublist ⟨[' ', 'p', 'a', 'r', 'i', 's', 'h'], rfl⟩)
  | case2 c rest h ih =>
    rw [removeParish_cons_ne c rest h]
    exact ih.cons₂ c
  | case3 => rw [removeParish_nil]

theorem noTwoWS_removeParish (l : List Char) :
    noTwoWS l →
      noTwoWS (removeParish l) ∧
      (∀ a, (removeParish l).head? = some a → isWSChar a = true →
        ∃ b, l.head? = some b ∧ isWSChar b = true) := by
  unfold noTwoWS
  induction l using removeParish.induct with
  | case1 rest ih =>
    intro h
    rw [removeParish]
    have hrest := h.tail.tail.tail.tail.tail.tail.tail
    obtain ⟨ih1, _⟩ := ih hrest
    refine ⟨ih1, ?_⟩
    intro a _ _
    exact ⟨' ', rfl, by decide⟩
  | case2 c rest hne ih =>
    intro h
    rw [removeParish_cons_ne c rest hne]
    obtain ⟨ih1, ih2⟩ := ih (List.Chain'.tail h)
    constructor
    · rw [List.chain'_cons']
      refine ⟨?_, ih1⟩
      intro y hy
      rintro ⟨hc, hyws⟩
      obtain ⟨b, hb, hbws⟩ := ih2 y (by simpa using hy) hyws
      exact (List.chain'_cons'.mp h).1 b (by simpa using hb) ⟨hc, hbws⟩
    · intro a ha hws
      have hca : c = a := by simpa using ha
      exact ⟨c, rfl, by rw [hca]; exact hws⟩
  | case3 =>
    intro _
    rw [removeParish_nil]
    exact ⟨List.chain'_nil, fun a ha => by cases ha⟩

theorem dropWhile_dropWhile {p : Char → Bool} (l : List Char) :
    (l.dropWhile p).dropWhile p = l.dropWhile p := by
  induction l with
  | nil => rfl
  | cons c rest ih =>
    by_cases h : p c = true
    · simp only [List.dropWhile_cons, h, if_true]
      exact ih
    · simp [List.dropWhile_cons, h]

theorem dropWhile_prefix_stable {p : Char → Bool} {l m : List Char}
    (h : l.dropWhile p = l) (hpre : m <+: l) : m.dropWhile p = m := by
  cases m with
  | nil => rfl
  | cons c m' =>
    obtain ⟨t, ht⟩ := hpre
    have hc : ¬ p c = true := by
      intro hc'
      rw [← ht, List.cons_append, List.dropWhile_cons, if_pos hc'] at h
      have hlen := (List.dropWhile_sublist (l := m' ++ t) p).length_le
      rw [h] at hlen
      simp at hlen
    rw [List.dropWhile_cons, if_neg hc]

theorem trimChars_sublist (l : List Char) : (trimChars l).Sublist l := by
  unfold trimChars
  have h1 : (l.dropWhile isWSChar).Sublist l := List.dropWhile_sublist _
  have h2 : ((l.dropWhile isWSChar).reverse.dropWhile isWSChar).Sublist
      (l.dropWhile isWSChar).reverse := List.dropWhile_sublist _
  have h3 := h2.reverse
  rw [List.reverse_reverse] at h3
  exact h3.trans h1

theorem noTwoWS_reverse {l : List Char} (h : noTwoWS l) : noTwoWS l.reverse := by
  unfold noTwoWS at h ⊢
  rw [List.chain'_reverse]
  exact List.Chain'.imp (fun a b hab => fun hba => hab ⟨hba.2, hba.1⟩) h

theorem noTwoWS_dropWhile {p : Char → Bool} {l : List Char} (h : noTwoWS l) :
    noTwoWS (l.dropWhile p) :=
  List.Chain'.suffix h (List.dropWhile_suffix p)

theorem noTwoWS_trimChars {l : List Char} (h : noTwoWS l) : noTwoWS (trimChars l) := by
  unfold trimChars
  exact noTwoWS_reverse (noTwoWS_dropWhile (noTwoWS_reverse (noTwoWS_dropWhile h)))

theorem trimChars_idem (l : List Char) : trimChars (trimChars l) = trimChars l := by
  unfold trimChars
  have hA : (l.dropWhile isWSChar).dropWhile isWSChar = l.dropWhile isWSChar :=
    dropWhile_dropWhile l
  obtain ⟨t, ht⟩ := List.dropWhile_suffix (l := (l.dropWhile isWSChar).reverse) isWSChar
  have hpre : ((l.dropWhile isWSChar).reverse.dropWhile isWSChar).reverse <+:
      l.dropWhile isWSChar := by
    refine ⟨t.reverse, ?_⟩
    rw [← List.reverse_append, ht, List.reverse_reverse]
  have hB := dropWhile_prefix_stable hA hpre
  rw [hB, List.reverse_reverse, dropWhile_dropWhile]

theorem map_jsToLower_eq_self {l : List Char} (h : ∀ c ∈ l, jsToLower c = c) :
    l.map jsToLower = l := by
  induction l with
  | nil => rfl
  | cons c rest ih =>
    rw [List.map_cons, h c (List.mem_cons_self _ _),
      ih (fun x hx => h x (List.mem_cons_of_mem _ hx))]

theorem normalize_data_eq (s : String) :
    (normalizeCountyName s).data =
      trimChars (removeParish (removeCounty (collapseWS (s.data.map jsToLower)))) := rfl

/-- Claim C2 (amended): normalization is idempotent on every input whose
normalized form contains no further `" county"` or `" parish"` occurrence
(equivalently, on which the two suffix-removal passes act as the identity);
in general a second pass can strip further (see the counterexample). -/
theorem C2_normalize_idem_amended (s : String)
    (hc : removeCounty (normalizeCountyName s).data = (normalizeCountyName s).data)
    (hp : removeParish (normalizeCountyName s).data = (normalizeCountyName s).data) :
    normalizeCountyName (normalizeCountyName s) = normalizeCountyName s := by
  have hd := normalize_data_eq s
  have hlow : ∀ c ∈ (normalizeCountyName s).data, jsToLower c = c := by
    intro c hcm
    rw [hd] at hcm
    have hcm1 := (trimChars_sublist _).subset hcm
    have hcm2 := (removeParish_sublist _).subset hcm1
    have hcm3 := (removeCounty_sublist _).subset hcm2
    rcases mem_collapseWS _ c hcm3 with h | ⟨hm, _⟩
    · rw [h]; decide
    · obtain ⟨a, _, rfl⟩ := List.mem_map.mp hm
      exact jsToLower_idem a
  have hws : ∀ c ∈ (normalizeCountyName s).data, isWSChar c = true → c = ' ' := by
    intro c hcm hw
    rw [hd] at hcm
    have hcm1 := (trimChars_sublist _).subset hcm
    have hcm2 := (removeParish_sublist _).subset hcm1
    have hcm3 := (removeCounty_sublist _).subset hcm2
    rcases mem_collapseWS _ c hcm3 with h | ⟨_, hnw⟩
    · exact h
    · rw [hnw] at hw; cases hw
  have hch : noTwoWS (normalizeCountyName s).data := by
    rw [hd]
    exact noTwoWS_trimChars
      ((noTwoWS_removeParish _ ((noTwoWS_removeCounty _ (noTwoWS_collapseWS _)).1)).1)
  have htr : trimChars (normalizeCountyName s).data = (normalizeCountyName s).data := by
    rw [hd]
    exact trimChars_idem _
  apply String.ext
  rw [normalize_data_eq (normalizeCountyName s)]
  rw [map_jsToLower_eq_self hlow, collapseWS_eq_self _ hws hch, hc, hp, htr]

/-- Claim C2 witness: the amended idempotence theorem at `"Fairfax"`, whose
normalized form `"fairfax"` contains no suffix token. -/
theorem C2_idem_witness :
    removeCounty (normalizeCountyName "Fairfax").data = (normalizeCountyName "Fairfax").data ∧
    removeParish (normalizeCountyName "Fairfax").data = (normalizeCountyName "Fairfax").data ∧
    normalizeCountyName (normalizeCountyName "Fairfax") = normalizeCountyName "Fairfax" :=
  ⟨by decide, by decide, C2_normalize_idem_amended "Fairfax" (by decide) (by decide)⟩
